import Mathlib

/-!
Shallow embedding of `chat_server/command.py`: the type-tagged command
serialization layer of a chat system — the command variants `Register`,
`Login`, `Logout`, `Create`, `Join`, `Leave`, `Message`, `Close`, the tag
registry `Command.get_command`, and `CommandInvoker` with `store_command`,
`serialize`, `set_receiver`, `unserialize` and `send_all`.

Modelling conventions:
- A JSON record with string-valued fields is a `JsonObj`, an association
  list in insertion order; `JsonObj.getField` models a Python dict lookup
  on a dict built from those pairs (a later duplicate key wins), returning
  `none` where Python raises `KeyError`.  The invoker's blob is the list
  of the entries' records (the logical wire format; the textual JSON
  encoding is a bijection on this data and is not re-modelled).
- The external `ClientHandler` receiver is an opaque handle; executing a
  command is observed as the pair (receiver handle, method call with its
  arguments) of type `ClientHandler × ReceiverCall`.
- A Python attribute that may be unset (the string fields, which are only
  assigned after construction, `client_handler` defaulting to `None`, and
  the invoker's `_receiver` before `set_receiver`) is an `Option`; reading
  an unset attribute raises, which surfaces as `none` / an error value.
- The exceptions of `unserialize` (`KeyError` on an unregistered tag,
  `KeyError` on a missing field, and the receiver precondition failure)
  are the values of `DecodeError`.  A method that mutates `self` and may
  raise returns the pair (object after the call, raised error if any); the
  source assigns `self.commands` only after the whole loop succeeds, so a
  raised exception leaves the object exactly as it was.
-/

/-- Opaque handle for the external `ClientHandler` receiver. -/
abbrev ClientHandler := Nat

/-- A JSON record whose values are strings, in insertion order. -/
abbrev JsonObj := List (String × String)

/-- Python dict lookup `data[k]` on a dict built from the pairs of `o`
(later duplicates win); `none` models `KeyError`. -/
def JsonObj.getField (o : JsonObj) (k : String) : Option String :=
  ((o.filter (fun p => p.1 == k)).getLast?).map (fun p => p.2)

/-- The errors `CommandInvoker.unserialize` can raise: the receiver
precondition failure, `KeyError` on an unregistered type tag, and
`KeyError` on a field missing from an entry's record. -/
inductive DecodeError
  | NoReceiverBound
  | UnknownCommandType
  | MalformedPayload
  deriving DecidableEq, Repr

/-- The closed set of concrete `Command` subclasses. -/
inductive CommandType
  | Register | Login | Logout | Create | Join | Leave | Message | Close
  deriving DecidableEq, Repr

/-- A `Command` instance: one constructor per concrete subclass, holding
its `client_handler` reference and its declared string fields (unset
attributes are `none`). -/
inductive Command
  | Register (client_handler : Option ClientHandler) (username password : Option String)
  | Login (client_handler : Option ClientHandler) (username password : Option String)
  | Logout (client_handler : Option ClientHandler)
  | Create (client_handler : Option ClientHandler) (name : Option String)
  | Join (client_handler : Option ClientHandler) (name : Option String)
  | Leave (client_handler : Option ClientHandler)
  | Message (client_handler : Option ClientHandler) (message : Option String)
  | Close (client_handler : Option ClientHandler)
  deriving DecidableEq, Repr

/-- The concrete class of an instance (`self.__class__`). -/
def Command.cls : Command → CommandType
  | .Register _ _ _ => .Register
  | .Login _ _ _ => .Login
  | .Logout _ => .Logout
  | .Create _ _ => .Create
  | .Join _ _ => .Join
  | .Leave _ => .Leave
  | .Message _ _ => .Message
  | .Close _ => .Close

/-- The declared string fields of an instance, in declaration order,
ignoring the receiver reference. -/
def Command.fields : Command → List (Option String)
  | .Register _ u p => [u, p]
  | .Login _ u p => [u, p]
  | .Logout _ => []
  | .Create _ n => [n]
  | .Join _ n => [n]
  | .Leave _ => []
  | .Message _ m => [m]
  | .Close _ => []

/-- The `client_handler` attribute of an instance. -/
def Command.client_handler : Command → Option ClientHandler
  | .Register ch _ _ => ch
  | .Login ch _ _ => ch
  | .Logout ch => ch
  | .Create ch _ => ch
  | .Join ch _ => ch
  | .Leave ch => ch
  | .Message ch _ => ch
  | .Close ch => ch

/-- Per-subclass `serialize`: the record with the `type` tag
(`self.__class__.__name__`) plus all declared fields.  Reading an unset
field attribute raises, modelled as `none`. -/
def Command.serialize : Command → Option JsonObj
  | .Register _ username password =>
      match username, password with
      | some u, some p => some [("type", "Register"), ("username", u), ("password", p)]
      | _, _ => none
  | .Login _ username password =>
      match username, password with
      | some u, some p => some [("type", "Login"), ("username", u), ("password", p)]
      | _, _ => none
  | .Logout _ => some [("type", "Logout")]
  | .Create _ name =>
      match name with
      | some n => some [("type", "Create"), ("name", n)]
      | none => none
  | .Join _ name =>
      match name with
      | some n => some [("type", "Join"), ("name", n)]
      | none => none
  | .Leave _ => some [("type", "Leave")]
  | .Message _ message =>
      match message with
      | some m => some [("type", "Message"), ("message", m)]
      | none => none
  | .Close _ => some [("type", "Close")]

/-- Per-subclass `unserialize(serialized)`: re-reads the declared fields
from the record and assigns them on `self` (keeping `client_handler` and
the tag untouched); a missing key raises `KeyError`, surfaced as
`MalformedPayload`.  `Logout`, `Leave` and `Close` have a `pass` body. -/
def Command.unserialize : Command → JsonObj → Except DecodeError Command
  | .Register ch _ _, o =>
      match o.getField "username" with
      | none => .error .MalformedPayload
      | some u =>
          match o.getField "password" with
          | none => .error .MalformedPayload
          | some p => .ok (.Register ch (some u) (some p))
  | .Login ch _ _, o =>
      match o.getField "username" with
      | none => .error .MalformedPayload
      | some u =>
          match o.getField "password" with
          | none => .error .MalformedPayload
          | some p => .ok (.Login ch (some u) (some p))
  | .Logout ch, _ => .ok (.Logout ch)
  | .Create ch _, o =>
      match o.getField "name" with
      | none => .error .MalformedPayload
      | some n => .ok (.Create ch (some n))
  | .Join ch _, o =>
      match o.getField "name" with
      | none => .error .MalformedPayload
      | some n => .ok (.Join ch (some n))
  | .Leave ch, _ => .ok (.Leave ch)
  | .Message ch _, o =>
      match o.getField "message" with
      | none => .error .MalformedPayload
      | some m => .ok (.Message ch (some m))
  | .Close ch, _ => .ok (.Close ch)

/-- One receiver method invocation with its arguments, as the source's
`execute` bodies perform them. -/
inductive ReceiverCall
  | register (username password : String)
  | login (username password : String)
  | logout
  | create (name : String)
  | join (name : String)
  | leave
  | send_message (message : String)
  | close
  deriving DecidableEq, Repr

/-- Per-subclass `execute`: exactly one receiver method call with the
instance's fields as arguments.  An unset `client_handler` or field
attribute raises before any call is made, modelled as `none`. -/
def Command.execute : Command → Option (ClientHandler × ReceiverCall)
  | .Register ch username password =>
      match ch, username, password with
      | some c, some u, some p => some (c, .register u p)
      | _, _, _ => none
  | .Login ch username password =>
      match ch, username, password with
      | some c, some u, some p => some (c, .login u p)
      | _, _, _ => none
  | .Logout ch =>
      match ch with
      | some c => some (c, .logout)
      | none => none
  | .Create ch name =>
      match ch, name with
      | some c, some n => some (c, .create n)
      | _, _ => none
  | .Join ch name =>
      match ch, name with
      | some c, some n => some (c, .join n)
      | _, _ => none
  | .Leave ch =>
      match ch with
      | some c => some (c, .leave)
      | none => none
  | .Message ch message =>
      match ch, message with
      | some c, some m => some (c, .send_message m)
      | _, _ => none
  | .Close ch =>
      match ch with
      | some c => some (c, .close)
      | none => none

/-- The receiver method call an instance would perform, without the
receiver itself: the variant's method with the instance's field values. -/
def Command.call : Command → Option ReceiverCall
  | .Register _ username password =>
      match username, password with
      | some u, some p => some (.register u p)
      | _, _ => none
  | .Login _ username password =>
      match username, password with
      | some u, some p => some (.login u p)
      | _, _ => none
  | .Logout _ => some .logout
  | .Create _ name =>
      match name with
      | some n => some (.create n)
      | none => none
  | .Join _ name =>
      match name with
      | some n => some (.join n)
      | none => none
  | .Leave _ => some .leave
  | .Message _ message =>
      match message with
      | some m => some (.send_message m)
      | none => none
  | .Close _ => some .close

/-- The `__name__` strings keyed in the lazily built
`Command.all_command` dict. -/
def registeredTags : List String :=
  ["Register", "Login", "Logout", "Create", "Join", "Leave", "Message", "Close"]

/-- `Command.get_command(type_)`: resolves a tag via the registry dict
`{cmd.__name__: cmd for cmd in Command.__subclasses__()}`; an absent key
raises `KeyError`, surfaced as `UnknownCommandType`.  (The lazy one-time
construction of the dict is not observable in the result.) -/
def Command.get_command (type_ : String) : Except DecodeError CommandType :=
  if type_ = "Register" then .ok .Register
  else if type_ = "Login" then .ok .Login
  else if type_ = "Logout" then .ok .Logout
  else if type_ = "Create" then .ok .Create
  else if type_ = "Join" then .ok .Join
  else if type_ = "Leave" then .ok .Leave
  else if type_ = "Message" then .ok .Message
  else if type_ = "Close" then .ok .Close
  else .error .UnknownCommandType

/-- Calling the resolved class: `cmd_class(self._receiver)`.  Each
`__init__` stores the receiver and leaves every declared field unset. -/
def CommandType.construct : CommandType → Option ClientHandler → Command
  | .Register, ch => .Register ch none none
  | .Login, ch => .Login ch none none
  | .Logout, ch => .Logout ch
  | .Create, ch => .Create ch none
  | .Join, ch => .Join ch none
  | .Leave, ch => .Leave ch
  | .Message, ch => .Message ch none
  | .Close, ch => .Close ch

/-- The declared field names each subclass's `unserialize` reads from an
entry's record. -/
def CommandType.declaredFields : CommandType → List String
  | .Register => ["username", "password"]
  | .Login => ["username", "password"]
  | .Logout => []
  | .Create => ["name"]
  | .Join => ["name"]
  | .Leave => []
  | .Message => ["message"]
  | .Close => []

/-- The invoker: an ordered buffer of commands plus the `_receiver`
attribute, which is unset until `set_receiver` is called. -/
structure CommandInvoker where
  commands : List Command
  receiver : Option ClientHandler
  deriving DecidableEq, Repr

/-- `CommandInvoker.__init__`: `self.commands = []`, `_receiver` unset. -/
def CommandInvoker.new : CommandInvoker := ⟨[], none⟩

/-- `store_command(command)`: appends to the buffer. -/
def CommandInvoker.store_command (inv : CommandInvoker) (command : Command) : CommandInvoker :=
  { inv with commands := inv.commands ++ [command] }

/-- `set_receiver(receiver)`: binds the receiver used by later decodes. -/
def CommandInvoker.set_receiver (inv : CommandInvoker) (receiver : ClientHandler) : CommandInvoker :=
  { inv with receiver := some receiver }

/-- The list comprehension of `CommandInvoker.serialize`: each buffered
command's own `serialize`, in buffer order; a raise anywhere aborts. -/
def serializeCommands : List Command → Option (List JsonObj)
  | [] => some []
  | c :: cs =>
      match c.serialize with
      | none => none
      | some o =>
          match serializeCommands cs with
          | none => none
          | some os => some (o :: os)

/-- `CommandInvoker.serialize()`: the blob is the ordered list of the
buffered commands' encoded records.  The method reads `self.commands`
only and assigns nothing. -/
def CommandInvoker.serialize (inv : CommandInvoker) : Option (List JsonObj) :=
  serializeCommands inv.commands

/-- The body of `unserialize`'s loop for one entry: read the entry's
`type` tag (`KeyError` surfaces as `MalformedPayload`), resolve it through
the registry, construct a fresh instance bound to the current receiver,
and let it `unserialize` the entry. -/
def decodeEntry (receiver : ClientHandler) (entry : JsonObj) : Except DecodeError Command :=
  match entry.getField "type" with
  | none => .error .MalformedPayload
  | some t =>
      match Command.get_command t with
      | .error e => .error e
      | .ok cls => (cls.construct (some receiver)).unserialize entry

/-- The loop of `CommandInvoker.unserialize`: decode each entry in order,
appending to the local `data` list; the first raise aborts the loop. -/
def decodeEntries (receiver : ClientHandler) : List JsonObj → Except DecodeError (List Command)
  | [] => .ok []
  | entry :: rest =>
      match decodeEntry receiver entry with
      | .error e => .error e
      | .ok c =>
          match decodeEntries receiver rest with
          | .error e => .error e
          | .ok cs => .ok (c :: cs)

/-- `CommandInvoker.unserialize(serialized)`: requires a bound receiver
(an unset or `None` `_receiver` raises before anything is decoded), then
decodes every entry into the local `data` list and only on success
executes `self.commands = data`.  The returned pair is (the object after
the call, the raised error if any): a raise leaves the object unchanged
because the method's only assignment to `self` is that last line. -/
def CommandInvoker.unserialize (inv : CommandInvoker) (serialized : List JsonObj) :
    CommandInvoker × Option DecodeError :=
  match inv.receiver with
  | none => (inv, some .NoReceiverBound)
  | some receiver =>
      match decodeEntries receiver serialized with
      | .error e => (inv, some e)
      | .ok data => ({ inv with commands := data }, none)

/-- The traversal of `CommandInvoker.send_all`: execute each buffered
command in order; the observed behaviour is the list of receiver method
calls, `none` if some `execute` raises. -/
def executeAll : List Command → Option (List (ClientHandler × ReceiverCall))
  | [] => some []
  | c :: cs =>
      match c.execute with
      | none => none
      | some call =>
          match executeAll cs with
          | none => none
          | some calls => some (call :: calls)

/-- `CommandInvoker.send_all()`: executes the buffer in order. -/
def CommandInvoker.send_all (inv : CommandInvoker) :
    Option (List (ClientHandler × ReceiverCall)) :=
  executeAll inv.commands

/-! Helper lemmas about the loop functions. -/

theorem foldl_store_commands (cs : List Command) (inv : CommandInvoker) :
    (cs.foldl CommandInvoker.store_command inv).commands = inv.commands ++ cs := by
  induction cs generalizing inv with
  | nil => simp
  | cons c cs ih => simp [List.foldl, CommandInvoker.store_command, ih]

theorem get_command_of_not_mem (t : String) (h : t ∉ registeredTags) :
    Command.get_command t = .error .UnknownCommandType := by
  simp [registeredTags] at h
  obtain ⟨h1, h2, h3, h4, h5, h6, h7, h8⟩ := h
  simp [Command.get_command, h1, h2, h3, h4, h5, h6, h7, h8]

theorem decodeEntries_append_error (r : ClientHandler) (pre : List JsonObj) (e : JsonObj)
    (post : List JsonObj) (cs : List Command) (err : DecodeError)
    (hpre : decodeEntries r pre = .ok cs) (he : decodeEntry r e = .error err) :
    decodeEntries r (pre ++ e :: post) = .error err := by
  induction pre generalizing cs with
  | nil => simp [decodeEntries, he]
  | cons a pre ih =>
      rw [decodeEntries] at hpre
      cases ha : decodeEntry r a with
      | error e' => rw [ha] at hpre; exact absurd hpre (by simp)
      | ok c =>
          rw [ha] at hpre
          cases hrest : decodeEntries r pre with
          | error e' => rw [hrest] at hpre; exact absurd hpre (by simp)
          | ok cs' =>
              show decodeEntries r (a :: (pre ++ e :: post)) = .error err
              rw [decodeEntries, ha, ih cs' hrest]

theorem decodeEntries_ok_length (r : ClientHandler) (blob : List JsonObj) (cs : List Command)
    (h : decodeEntries r blob = .ok cs) : cs.length = blob.length := by
  induction blob generalizing cs with
  | nil => rw [decodeEntries] at h; cases h; rfl
  | cons a blob ih =>
      rw [decodeEntries] at h
      cases ha : decodeEntry r a with
      | error e' => rw [ha] at h; exact absurd h (by simp)
      | ok c =>
          rw [ha] at h
          cases hrest : decodeEntries r blob with
          | error e' => rw [hrest] at h; exact absurd h (by simp)
          | ok cs' =>
              rw [hrest] at h
              cases h
              simp [ih cs' hrest]

theorem decodeEntries_ok_get (r : ClientHandler) (blob : List JsonObj) (cs : List Command)
    (h : decodeEntries r blob = .ok cs) :
    ∀ (i : Nat) (hi : i < blob.length) (hi' : i < cs.length),
      decodeEntry r (blob.get ⟨i, hi⟩) = .ok (cs.get ⟨i, hi'⟩) := by
  induction blob generalizing cs with
  | nil => intro i hi _; exact absurd hi (by simp)
  | cons a blob ih =>
      rw [decodeEntries] at h
      cases ha : decodeEntry r a with
      | error e' => rw [ha] at h; exact absurd h (by simp)
      | ok c =>
          rw [ha] at h
          cases hrest : decodeEntries r blob with
          | error e' => rw [hrest] at h; exact absurd h (by simp)
          | ok cs' =>
              rw [hrest] at h
              cases h
              intro i hi hi'
              cases i with
              | zero => exact ha
              | succ i => exact ih cs' hrest i (by simpa using hi) (by simpa using hi')

theorem serializeCommands_ok_length (cs : List Command) (blob : List JsonObj)
    (h : serializeCommands cs = some blob) : blob.length = cs.length := by
  induction cs generalizing blob with
  | nil => rw [serializeCommands] at h; cases h; rfl
  | cons c cs ih =>
      rw [serializeCommands] at h
      cases hc : c.serialize with
      | none => rw [hc] at h; exact absurd h (by simp)
      | some o =>
          rw [hc] at h
          cases hrest : serializeCommands cs with
          | none => rw [hrest] at h; exact absurd h (by simp)
          | some os =>
              rw [hrest] at h
              cases h
              simp [ih os hrest]

theorem serializeCommands_ok_get (cs : List Command) (blob : List JsonObj)
    (h : serializeCommands cs = some blob) :
    ∀ (i : Nat) (hi : i < cs.length) (hi' : i < blob.length),
      (cs.get ⟨i, hi⟩).serialize = some (blob.get ⟨i, hi'⟩) := by
  induction cs generalizing blob with
  | nil => intro i hi _; exact absurd hi (by simp)
  | cons c cs ih =>
      rw [serializeCommands] at h
      cases hc : c.serialize with
      | none => rw [hc] at h; exact absurd h (by simp)
      | some o =>
          rw [hc] at h
          cases hrest : serializeCommands cs with
          | none => rw [hrest] at h; exact absurd h (by simp)
          | some os =>
              rw [hrest] at h
              cases h
              intro i hi hi'
              cases i with
              | zero => exact hc
              | succ i => exact ih os hrest i (by simpa using hi) (by simpa using hi')

/-- One command's round trip through the wire followed by execution
against the decoding receiver: a populated command's encoded record
decodes (via registry resolution on its tag) to a command bound to the
receiver that performs the same method call. -/
theorem serialize_decode_execute (c : Command) (k : ReceiverCall) (r : ClientHandler)
    (h : c.call = some k) :
    ∃ o c', c.serialize = some o ∧ decodeEntry r o = .ok c' ∧ c'.execute = some (r, k) := by
  cases c with
  | Register ch u p =>
      cases u with
      | none => exact absurd h (by simp [Command.call])
      | some u =>
          cases p with
          | none => exact absurd h (by simp [Command.call])
          | some p =>
              rw [Command.call] at h
              cases h
              exact ⟨_, _, rfl, rfl, rfl⟩
  | Login ch u p =>
      cases u with
      | none => exact absurd h (by simp [Command.call])
      | some u =>
          cases p with
          | none => exact absurd h (by simp [Command.call])
          | some p =>
              rw [Command.call] at h
              cases h
              exact ⟨_, _, rfl, rfl, rfl⟩
  | Logout ch =>
      rw [Command.call] at h
      cases h
      exact ⟨_, _, rfl, rfl, rfl⟩
  | Create ch n =>
      cases n with
      | none => exact absurd h (by simp [Command.call])
      | some n =>
          rw [Command.call] at h
          cases h
          exact ⟨_, _, rfl, rfl, rfl⟩
  | Join ch n =>
      cases n with
      | none => exact absurd h (by simp [Command.call])
      | some n =>
          rw [Command.call] at h
          cases h
          exact ⟨_, _, rfl, rfl, rfl⟩
  | Leave ch =>
      rw [Command.call] at h
      cases h
      exact ⟨_, _, rfl, rfl, rfl⟩
  | Message ch m =>
      cases m with
      | none => exact absurd h (by simp [Command.call])
      | some m =>
          rw [Command.call] at h
          cases h
          exact ⟨_, _, rfl, rfl, rfl⟩
  | Close ch =>
      rw [Command.call] at h
      cases h
      exact ⟨_, _, rfl, rfl, rfl⟩

/-- Batch version of the round trip: a list of populated commands
serializes entrywise, the blob decodes entrywise against receiver `r`,
and executing the decoded list performs the original calls on `r` in the
original order. -/
theorem batch_round_trip (r : ClientHandler) (cs : List Command) (ks : List ReceiverCall)
    (h : List.Forall₂ (fun c k => c.call = some k) cs ks) :
    ∃ blob data, serializeCommands cs = some blob ∧
      decodeEntries r blob = .ok data ∧
      executeAll data = some (ks.map (fun k => (r, k))) := by
  induction h with
  | nil => exact ⟨[], [], rfl, rfl, rfl⟩
  | cons hck htail ih =>
      obtain ⟨blob, data, hs, hd, he⟩ := ih
      obtain ⟨o, c', ho, hdec, hex⟩ := serialize_decode_execute _ _ r hck
      refine ⟨o :: blob, c' :: data, ?_, ?_, ?_⟩
      · rw [serializeCommands, ho, hs]
      · rw [decodeEntries, hdec, hd]
      · rw [List.map_cons, executeAll, hex, he]

/-- A subclass `unserialize` on an entry missing one of the declared
fields its body reads raises `KeyError`, surfaced as `MalformedPayload`. -/
theorem unserialize_missing_field (v : CommandType) (r : ClientHandler) (e : JsonObj)
    (f : String) (hf : f ∈ v.declaredFields) (hmiss : e.getField f = none) :
    (v.construct (some r)).unserialize e = .error .MalformedPayload := by
  cases v with
  | Register =>
      rw [CommandType.declaredFields] at hf
      rcases (by simpa using hf : f = "username" ∨ f = "password") with rfl | rfl
      · rw [CommandType.construct, Command.unserialize, hmiss]
      · rw [CommandType.construct, Command.unserialize]
        cases hu : e.getField "username" with
        | none => rfl
        | some u => rw [hmiss]
  | Login =>
      rw [CommandType.declaredFields] at hf
      rcases (by simpa using hf : f = "username" ∨ f = "password") with rfl | rfl
      · rw [CommandType.construct, Command.unserialize, hmiss]
      · rw [CommandType.construct, Command.unserialize]
        cases hu : e.getField "username" with
        | none => rfl
        | some u => rw [hmiss]
  | Logout => exact absurd hf (by simp [CommandType.declaredFields])
  | Create =>
      rw [CommandType.declaredFields] at hf
      rcases (by simpa using hf : f = "name") with rfl
      rw [CommandType.construct, Command.unserialize, hmiss]
  | Join =>
      rw [CommandType.declaredFields] at hf
      rcases (by simpa using hf : f = "name") with rfl
      rw [CommandType.construct, Command.unserialize, hmiss]
  | Leave => exact absurd hf (by simp [CommandType.declaredFields])
  | Message =>
      rw [CommandType.declaredFields] at hf
      rcases (by simpa using hf : f = "message") with rfl
      rw [CommandType.construct, Command.unserialize, hmiss]
  | Close => exact absurd hf (by simp [CommandType.declaredFields])

/-! The claims. -/

/-- Claim C1: for every command variant whose declared string fields are
all populated (so its `serialize` produces a record `o`), constructing a
fresh instance of the same variant (with any receiver) and calling its
`unserialize` on `o` yields a command of the same variant whose fields
equal the original's. -/
theorem c1_round_trip (c : Command) (o : JsonObj) (rcv : Option ClientHandler)
    (h : c.serialize = some o) :
    ∃ c', (c.cls.construct rcv).unserialize o = .ok c' ∧
      c'.cls = c.cls ∧ c'.fields = c.fields := by
  cases c with
  | Register ch u p =>
      cases u with
      | none => exact absurd h (by simp [Command.serialize])
      | some u =>
          cases p with
          | none => exact absurd h (by simp [Command.serialize])
          | some p =>
              rw [Command.serialize] at h
              cases h
              exact ⟨_, rfl, rfl, rfl⟩
  | Login ch u p =>
      cases u with
      | none => exact absurd h (by simp [Command.serialize])
      | some u =>
          cases p with
          | none => exact absurd h (by simp [Command.serialize])
          | some p =>
              rw [Command.serialize] at h
              cases h
              exact ⟨_, rfl, rfl, rfl⟩
  | Logout ch =>
      rw [Command.serialize] at h
      cases h
      exact ⟨_, rfl, rfl, rfl⟩
  | Create ch n =>
      cases n with
      | none => exact absurd h (by simp [Command.serialize])
      | some n =>
          rw [Command.serialize] at h
          cases h
          exact ⟨_, rfl, rfl, rfl⟩
  | Join ch n =>
      cases n with
      | none => exact absurd h (by simp [Command.serialize])
      | some n =>
          rw [Command.serialize] at h
          cases h
          exact ⟨_, rfl, rfl, rfl⟩
  | Leave ch =>
      rw [Command.serialize] at h
      cases h
      exact ⟨_, rfl, rfl, rfl⟩
  | Message ch m =>
      cases m with
      | none => exact absurd h (by simp [Command.serialize])
      | some m =>
          rw [Command.serialize] at h
          cases h
          exact ⟨_, rfl, rfl, rfl⟩
  | Close ch =>
      rw [Command.serialize] at h
      cases h
      exact ⟨_, rfl, rfl, rfl⟩

/-- Witness for C1 at `Register{username: "alice", password: "pw1"}`. -/
theorem c1_round_trip_witness :
    ∃ c', ((Command.Register none (some "alice") (some "pw1")).cls.construct none).unserialize
        [("type", "Register"), ("username", "alice"), ("password", "pw1")] = .ok c' ∧
      c'.cls = (Command.Register none (some "alice") (some "pw1")).cls ∧
      c'.fields = (Command.Register none (some "alice") (some "pw1")).fields :=
  c1_round_trip (Command.Register none (some "alice") (some "pw1"))
    [("type", "Register"), ("username", "alice"), ("password", "pw1")] none rfl

/-- Claim C2: storing a sequence of populated commands (whose method
calls are `ks`) into a fresh invoker, serializing it, decoding the blob
on an invoker with receiver `r` bound, and executing the decoded buffer
performs exactly the original variants' receiver methods with the
original field values, once each, in the original store order. -/
theorem c2_store_serialize_decode_execute (cs : List Command) (ks : List ReceiverCall)
    (inv : CommandInvoker) (r : ClientHandler)
    (hr : inv.receiver = some r)
    (h : List.Forall₂ (fun c k => c.call = some k) cs ks) :
    ∃ blob inv',
      (cs.foldl CommandInvoker.store_command CommandInvoker.new).serialize = some blob ∧
      inv.unserialize blob = (inv', none) ∧
      inv'.send_all = some (ks.map (fun k => (r, k))) := by
  obtain ⟨blob, data, hs, hd, he⟩ := batch_round_trip r cs ks h
  refine ⟨blob, { inv with commands := data }, ?_, ?_, ?_⟩
  · have hcmds : (cs.foldl CommandInvoker.store_command CommandInvoker.new).commands = cs := by
      simpa [CommandInvoker.new] using foldl_store_commands cs CommandInvoker.new
    rw [CommandInvoker.serialize, hcmds, hs]
  · simp only [CommandInvoker.unserialize, hr, hd]
  · rw [CommandInvoker.send_all, he]

/-- Witness for C2 at scenario A: `Register{"alice","pw1"}` then
`Message{"hi"}`, decoded on an invoker bound to receiver `0`. -/
theorem c2_store_serialize_decode_execute_witness :
    ∃ blob inv',
      ([Command.Register none (some "alice") (some "pw1"),
        Command.Message none (some "hi")].foldl
          CommandInvoker.store_command CommandInvoker.new).serialize = some blob ∧
      (CommandInvoker.mk [] (some 0)).unserialize blob = (inv', none) ∧
      inv'.send_all = some ([ReceiverCall.register "alice" "pw1",
        ReceiverCall.send_message "hi"].map (fun k => (0, k))) :=
  c2_store_serialize_decode_execute
    [Command.Register none (some "alice") (some "pw1"), Command.Message none (some "hi")]
    [ReceiverCall.register "alice" "pw1", ReceiverCall.send_message "hi"]
    (CommandInvoker.mk [] (some 0)) 0 rfl
    (List.Forall₂.cons rfl (List.Forall₂.cons rfl List.Forall₂.nil))

/-- Claim C3: decoding the blob whose single entry is the record with
field `type` equal to `"Logout"` on a receiver-bound invoker, then
executing the decoded batch, performs exactly one `logout()` call with no
arguments on that receiver. -/
theorem c3_logout_blob (inv : CommandInvoker) (r : ClientHandler)
    (hr : inv.receiver = some r) :
    ∃ inv', inv.unserialize [[("type", "Logout")]] = (inv', none) ∧
      inv'.send_all = some [(r, ReceiverCall.logout)] := by
  refine ⟨{ inv with commands := [.Logout (some r)] }, ?_, rfl⟩
  rw [CommandInvoker.unserialize, hr]
  rfl

/-- Witness for C3 on a fresh invoker bound to receiver `0`. -/
theorem c3_logout_blob_witness :
    ∃ inv', (CommandInvoker.mk [] (some 0)).unserialize [[("type", "Logout")]] = (inv', none) ∧
      inv'.send_all = some [(0, ReceiverCall.logout)] :=
  c3_logout_blob (CommandInvoker.mk [] (some 0)) 0 rfl

/-- Claim C4: on an invoker whose `_receiver` was never set, `unserialize`
fails with `NoReceiverBound` for every blob, constructs no commands, and
leaves the invoker (in particular its buffer) unchanged. -/
theorem c4_no_receiver (cs : List Command) (blob : List JsonObj) :
    (CommandInvoker.mk cs none).unserialize blob =
      (CommandInvoker.mk cs none, some DecodeError.NoReceiverBound) := rfl

/-- Counterexample to C5 as stated: the blob
`[{"type": "Register"}, {"type": "Teleport"}]` contains an entry whose
tag `"Teleport"` is unregistered, yet decoding it on a receiver-bound
invoker fails with `MalformedPayload` (the first entry's missing fields
are hit first), not with `UnknownCommandType`. -/
theorem c5_counterexample :
    ((CommandInvoker.mk [] (some 0)).unserialize
        [[("type", "Register")], [("type", "Teleport")]]).2 =
      some DecodeError.MalformedPayload ∧
    some DecodeError.MalformedPayload ≠ some DecodeError.UnknownCommandType ∧
    JsonObj.getField [("type", "Teleport")] "type" = some "Teleport" ∧
    "Teleport" ∉ registeredTags :=
  ⟨rfl, by decide, rfl, by decide⟩

/-- Claim C5 (amended): for every blob containing an entry whose tag is
unregistered, where every entry before the first such entry decodes
successfully, decoding on a receiver-bound invoker fails with
`UnknownCommandType` and leaves the invoker (in particular its buffer)
unchanged; `unserialize` performs no receiver method call. -/
theorem c5_unknown_tag (inv : CommandInvoker) (r : ClientHandler)
    (pre : List JsonObj) (e : JsonObj) (post : List JsonObj) (cs : List Command) (t : String)
    (hr : inv.receiver = some r)
    (hpre : decodeEntries r pre = .ok cs)
    (ht : e.getField "type" = some t)
    (hreg : t ∉ registeredTags) :
    inv.unserialize (pre ++ e :: post) = (inv, some DecodeError.UnknownCommandType) := by
  have hde : decodeEntry r e = .error .UnknownCommandType := by
    simp only [decodeEntry, ht, get_command_of_not_mem t hreg]
  have htot : decodeEntries r (pre ++ e :: post) = .error .UnknownCommandType :=
    decodeEntries_append_error r pre e post cs _ hpre hde
  simp only [CommandInvoker.unserialize, hr, htot]

/-- Witness for amended C5 at scenario C: the blob `[{"type": "Teleport"}]`
on a fresh invoker bound to receiver `0`. -/
theorem c5_unknown_tag_witness :
    (CommandInvoker.mk [] (some 0)).unserialize [[("type", "Teleport")]] =
      (CommandInvoker.mk [] (some 0), some DecodeError.UnknownCommandType) :=
  c5_unknown_tag (CommandInvoker.mk [] (some 0)) 0 [] [("type", "Teleport")] [] [] "Teleport"
    rfl rfl rfl (by decide)

/-- Counterexample to C6 as stated: the blob
`[{"type": "Teleport"}, {"type": "Register"}]` contains an entry (the
second) that lacks a declared field (`username`) of its resolved variant
`Register`, yet decoding it on a receiver-bound invoker fails with
`UnknownCommandType` (the first entry's unregistered tag is hit first),
not with `MalformedPayload`. -/
theorem c6_counterexample :
    ((CommandInvoker.mk [] (some 0)).unserialize
        [[("type", "Teleport")], [("type", "Register")]]).2 =
      some DecodeError.UnknownCommandType ∧
    some DecodeError.UnknownCommandType ≠ some DecodeError.MalformedPayload ∧
    Command.get_command "Register" = .ok CommandType.Register ∧
    "username" ∈ CommandType.Register.declaredFields ∧
    JsonObj.getField [("type", "Register")] "username" = none :=
  ⟨rfl, by decide, rfl, by decide, rfl⟩

/-- Claim C6 (amended): for every blob containing an entry that lacks a
declared field of its resolved variant, where every entry before the
first such entry decodes successfully, decoding on a receiver-bound
invoker fails with `MalformedPayload` at that entry, the whole batch is
abandoned there (the result does not depend on the entries after it), and
the invoker is left unchanged. -/
theorem c6_malformed_first_entry (inv : CommandInvoker) (r : ClientHandler)
    (pre : List JsonObj) (e : JsonObj) (post : List JsonObj) (cs : List Command)
    (t : String) (v : CommandType) (f : String)
    (hr : inv.receiver = some r)
    (hpre : decodeEntries r pre = .ok cs)
    (ht : e.getField "type" = some t)
    (hv : Command.get_command t = .ok v)
    (hf : f ∈ v.declaredFields)
    (hmiss : e.getField f = none) :
    inv.unserialize (pre ++ e :: post) = (inv, some DecodeError.MalformedPayload) := by
  have hde : decodeEntry r e = .error .MalformedPayload := by
    simp only [decodeEntry, ht, hv, unserialize_missing_field v r e f hf hmiss]
  have htot : decodeEntries r (pre ++ e :: post) = .error .MalformedPayload :=
    decodeEntries_append_error r pre e post cs _ hpre hde
  simp only [CommandInvoker.unserialize, hr, htot]

/-- Witness for amended C6: the blob `[{"type": "Register"}]` (its entry
lacks `username`) on a fresh invoker bound to receiver `0`. -/
theorem c6_malformed_first_entry_witness :
    (CommandInvoker.mk [] (some 0)).unserialize [[("type", "Register")]] =
      (CommandInvoker.mk [] (some 0), some DecodeError.MalformedPayload) :=
  c6_malformed_first_entry (CommandInvoker.mk [] (some 0)) 0 [] [("type", "Register")] [] []
    "Register" CommandType.Register "username" rfl rfl rfl rfl (by decide) rfl

/-- `unserialize` on an invoker whose receiver is unset: the precondition
failure, object unchanged. -/
theorem unserialize_receiver_none (inv : CommandInvoker) (blob : List JsonObj)
    (hrv : inv.receiver = none) :
    inv.unserialize blob = (inv, some .NoReceiverBound) := by
  simp only [CommandInvoker.unserialize, hrv]

/-- `unserialize` when the entry loop raises: the error propagates and the
object is unchanged. -/
theorem unserialize_decode_error (inv : CommandInvoker) (blob : List JsonObj)
    (r : ClientHandler) (err : DecodeError)
    (hrv : inv.receiver = some r) (hd : decodeEntries r blob = .error err) :
    inv.unserialize blob = (inv, some err) := by
  simp only [CommandInvoker.unserialize, hrv, hd]

/-- `unserialize` when the entry loop succeeds: the decoded list replaces
the buffer. -/
theorem unserialize_decode_ok (inv : CommandInvoker) (blob : List JsonObj)
    (r : ClientHandler) (data : List Command)
    (hrv : inv.receiver = some r) (hd : decodeEntries r blob = .ok data) :
    inv.unserialize blob = ({ inv with commands := data }, none) := by
  simp only [CommandInvoker.unserialize, hrv, hd]

/-- Claim C7: whenever `unserialize` succeeds, the buffer afterwards is
exactly the list of commands decoded from the blob, entry by entry in
blob order (same length, `i`-th command decoded from the `i`-th entry),
the receiver binding is kept, and the result does not depend on the prior
buffer contents — no previously stored command remains. -/
theorem c7_buffer_wholesale_replace (inv invbis : CommandInvoker) (blob : List JsonObj)
    (h : inv.unserialize blob = (invbis, none)) :
    ∃ r, inv.receiver = some r ∧
      decodeEntries r blob = .ok invbis.commands ∧
      invbis.receiver = inv.receiver ∧
      invbis.commands.length = blob.length ∧
      (∀ (i : Nat) (hi : i < blob.length) (hi' : i < invbis.commands.length),
        decodeEntry r (blob.get ⟨i, hi⟩) = .ok (invbis.commands.get ⟨i, hi'⟩)) ∧
      (∀ cs : List Command,
        (CommandInvoker.mk cs inv.receiver).unserialize blob =
          (CommandInvoker.mk invbis.commands inv.receiver, none)) := by
  cases hrv : inv.receiver with
  | none =>
      rw [unserialize_receiver_none inv blob hrv] at h
      injection h with _ h2
      exact absurd h2 (by simp)
  | some r =>
      cases hd : decodeEntries r blob with
      | error e =>
          rw [unserialize_decode_error inv blob r e hrv hd] at h
          injection h with _ h2
          exact absurd h2 (by simp)
      | ok data =>
          rw [unserialize_decode_ok inv blob r data hrv hd] at h
          injection h with h1 _
          subst h1
          refine ⟨r, rfl, hd, hrv, decodeEntries_ok_length r blob data hd, ?_, ?_⟩
          · exact decodeEntries_ok_get r blob data hd
          · intro cs
            exact unserialize_decode_ok (CommandInvoker.mk cs (some r)) blob r data rfl hd

/-- Witness for C7: an invoker holding a stale `Close` command decodes
the blob `[{"type": "Logout"}]`; its buffer becomes exactly the decoded
`Logout` command. -/
theorem c7_buffer_wholesale_replace_witness :
    ∃ r, (CommandInvoker.mk [Command.Close none] (some 0)).receiver = some r ∧
      decodeEntries r [[("type", "Logout")]] =
        .ok (CommandInvoker.mk [Command.Logout (some 0)] (some 0)).commands ∧
      (CommandInvoker.mk [Command.Logout (some 0)] (some 0)).receiver =
        (CommandInvoker.mk [Command.Close none] (some 0)).receiver ∧
      (CommandInvoker.mk [Command.Logout (some 0)] (some 0)).commands.length =
        [[("type", "Logout")]].length ∧
      (∀ (i : Nat) (hi : i < [[("type", "Logout")]].length)
          (hi' : i < (CommandInvoker.mk [Command.Logout (some 0)] (some 0)).commands.length),
        decodeEntry r ([[("type", "Logout")]].get ⟨i, hi⟩) =
          .ok ((CommandInvoker.mk [Command.Logout (some 0)] (some 0)).commands.get ⟨i, hi'⟩)) ∧
      (∀ cs : List Command,
        (CommandInvoker.mk cs (CommandInvoker.mk [Command.Close none] (some 0)).receiver).unserialize
            [[("type", "Logout")]] =
          (CommandInvoker.mk (CommandInvoker.mk [Command.Logout (some 0)] (some 0)).commands
            (CommandInvoker.mk [Command.Close none] (some 0)).receiver, none)) :=
  c7_buffer_wholesale_replace (CommandInvoker.mk [Command.Close none] (some 0))
    (CommandInvoker.mk [Command.Logout (some 0)] (some 0)) [[("type", "Logout")]] rfl

/-- Claim C8: `serialize` is a pure function of the buffer alone (two
invokers with equal buffers — whatever their receiver bindings — yield
the same blob), and a successful blob is the ordered list of the buffered
commands' own encoded records, index by index.  The source method reads
`self.commands` only and assigns nothing, so the invoker is unchanged by
the call (it is embedded as a pure function). -/
theorem c8_serialize_pure (inva invb : CommandInvoker) (blob : List JsonObj)
    (hc : inva.commands = invb.commands)
    (h : inva.serialize = some blob) :
    invb.serialize = some blob ∧
    blob.length = inva.commands.length ∧
    ∀ (i : Nat) (hi : i < inva.commands.length) (hi' : i < blob.length),
      (inva.commands.get ⟨i, hi⟩).serialize = some (blob.get ⟨i, hi'⟩) := by
  rw [CommandInvoker.serialize] at h
  refine ⟨?_, serializeCommands_ok_length inva.commands blob h, ?_⟩
  · rw [CommandInvoker.serialize, ← hc, h]
  · exact serializeCommands_ok_get inva.commands blob h

/-- Witness for C8: two invokers sharing the buffer `[Logout]` but with
different receiver bindings produce the same one-entry blob. -/
theorem c8_serialize_pure_witness :
    (CommandInvoker.mk [Command.Logout none] none).serialize = some [[("type", "Logout")]] ∧
    [[("type", "Logout")]].length =
      (CommandInvoker.mk [Command.Logout none] (some 0)).commands.length ∧
    ∀ (i : Nat) (hi : i < (CommandInvoker.mk [Command.Logout none] (some 0)).commands.length)
        (hi' : i < [[("type", "Logout")]].length),
      ((CommandInvoker.mk [Command.Logout none] (some 0)).commands.get ⟨i, hi⟩).serialize =
        some ([[("type", "Logout")]].get ⟨i, hi'⟩) :=
  c8_serialize_pure (CommandInvoker.mk [Command.Logout none] (some 0))
    (CommandInvoker.mk [Command.Logout none] none) [[("type", "Logout")]] rfl rfl

/-- Claim C9: `unserialize` is atomic with respect to the invoker: if the
call fails for any reason (unbound receiver, unknown tag, or malformed
entry at any position), the invoker after the call is exactly the invoker
before it — a partially decoded command list is never installed. -/
theorem c9_unserialize_atomic (inv : CommandInvoker) (blob : List JsonObj) (e : DecodeError)
    (h : (inv.unserialize blob).2 = some e) :
    (inv.unserialize blob).1 = inv := by
  cases hrv : inv.receiver with
  | none => rw [unserialize_receiver_none inv blob hrv]
  | some r =>
      cases hd : decodeEntries r blob with
      | error ebis => rw [unserialize_decode_error inv blob r ebis hrv hd]
      | ok data =>
          rw [unserialize_decode_ok inv blob r data hrv hd] at h
          exact absurd h (by simp)

/-- Witness for C9: a failed decode (no receiver bound) leaves the
invoker exactly as it was. -/
theorem c9_unserialize_atomic_witness :
    ((CommandInvoker.mk [Command.Close none] none).unserialize [[("type", "Logout")]]).1 =
      CommandInvoker.mk [Command.Close none] none :=
  c9_unserialize_atomic (CommandInvoker.mk [Command.Close none] none) [[("type", "Logout")]]
    DecodeError.NoReceiverBound rfl

/-- Claim C10: the field-less variants `Logout`, `Leave` and `Close` have
a `pass` `unserialize` body: decoding reads nothing from the entry's
record, never fails — whatever keys the record has or lacks — and leaves
the command unchanged. -/
theorem c10_fieldless_unserialize (ch : Option ClientHandler) (e : JsonObj) :
    (Command.Logout ch).unserialize e = .ok (Command.Logout ch) ∧
    (Command.Leave ch).unserialize e = .ok (Command.Leave ch) ∧
    (Command.Close ch).unserialize e = .ok (Command.Close ch) :=
  ⟨rfl, rfl, rfl⟩
